import Mathlib

/-!
Verification of the Bright Data SERP retrieval-cache-normalization layer.

Shallow embedding of `src/agents/utils/bright_data.py`: the in-memory TTL
cache (`_cache_get` / `_cache_set`), the cache-key normalizer, the result
extractor with its three prioritized strategies (organic, generic results,
raw-text heuristic), the top-level `search_google_serp` driver (with the
environment, clock and HTTP transport passed in explicitly), and the
`format_serp_results` ranker/formatter.

Python strings are modelled as Lean `String`s; `str.lower` and the regex
character class `[A-Z]` under `re.IGNORECASE` are modelled at ASCII
granularity (the repository only ever feeds ASCII queries and payload text
through these paths).  Python integers are `Int`; list slicing `xs[:n]`
keeps Python's semantics for negative `n`.
-/

namespace BrightData

/-- One normalized search result: the dict
`{"title": ..., "snippet": ..., "link": ...}` built by `search_google_serp`. -/
structure SearchResult where
  title : String
  snippet : String
  link : String
deriving Repr, DecidableEq

/-- The response dict of `search_google_serp`:
`{"success": bool, "results": [...], "error": str | None}`. -/
structure SearchResponse where
  success : Bool
  results : List SearchResult
  error : Option String
deriving Repr, DecidableEq

/-- A provider result item as consumed by the extractor: only the keys the
code reads (`title`, `description`, `snippet`, `link`, `url`); an absent key
is `none` (Python `item.get(k, d)` returns `d` when the key is missing). -/
structure Item where
  title : Option String := none
  description : Option String := none
  snippet : Option String := none
  link : Option String := none
  url : Option String := none
deriving Repr, DecidableEq

/-- The unwrapped provider payload as consumed by the extractor: the three
keys the `if "organic" in data / elif "results" / elif "raw"` chain tests,
each `none` when the key is absent. -/
structure Payload where
  organic : Option (List Item) := none
  results : Option (List Item) := none
  raw : Option String := none
deriving Repr, DecidableEq

/-- Python `s[:n]` for a nonnegative literal `n` on a string (used for the
`[:300]` snippet truncation and the `[:200]` error-body truncation). -/
def truncate (n : Nat) (s : String) : String :=
  String.mk (s.data.take n)

/-- Python `s.lower()` at ASCII granularity. -/
def pyLower (s : String) : String :=
  String.mk (s.data.map Char.toLower)

/-- Python list slicing `xs[:n]` for an arbitrary integer `n`: a nonnegative
`n` keeps the first `n` items, a negative `n` keeps all but the last `|n|`
items (empty when `|n| ≥ length`). -/
def pyTake (n : Int) (xs : List α) : List α :=
  if 0 ≤ n then xs.take n.toNat
  else xs.take (xs.length - (-n).toNat)

/-- The cache key built at line 64: `f"serp::{query.lower()}::{num_results}"`. -/
def cacheKey (query : String) (num_results : Int) : String :=
  "serp::" ++ pyLower query ++ "::" ++ toString num_results

/-- `_CACHE_TTL_SEC = 60 * 30`. -/
def CACHE_TTL_SEC : Int := 60 * 30

/-- The module-level `_CACHE` dict: an association list from key to
`(value, timestamp)`; at most one live binding per key (updates replace). -/
abbrev Cache : Type := List (String × SearchResponse × Int)

/-- `_cache_get(key)` at time `now`: `None` on a missing key; on an expired
entry (`now - ts > _CACHE_TTL_SEC`) the entry is popped and `None` returned;
otherwise the stored value.  Returns the (possibly shrunk) cache as well. -/
def cache_get (c : Cache) (now : Int) (key : String) :
    Option SearchResponse × Cache :=
  match List.lookup key c with
  | none => (none, c)
  | some (v, ts) =>
      if now - ts > CACHE_TTL_SEC then
        (none, List.filter (fun p => !(p.1 == key)) c)
      else (some v, c)

/-- `_cache_set(key, value)` at time `now`: overwrite with a fresh timestamp. -/
def cache_set (c : Cache) (now : Int) (key : String) (v : SearchResponse) :
    Cache :=
  (key, v, now) :: List.filter (fun p => !(p.1 == key)) c

/-- One item of the organic-results strategy (lines 117-122): `title`
defaulting to `""`, snippet preferring `description` then `snippet`,
truncated to 300 chars, link preferring `link` then `url`. -/
def extractOrganicItem (item : Item) : SearchResult :=
  { title := item.title.getD ""
    snippet := truncate 300 (item.description.getD (item.snippet.getD ""))
    link := item.link.getD (item.url.getD "") }

/-- One item of the generic `results` strategy (lines 126-131): like the
organic strategy but with the `snippet`/`description` priority swapped. -/
def extractGenericItem (item : Item) : SearchResult :=
  { title := item.title.getD ""
    snippet := truncate 300 (item.snippet.getD (item.description.getD ""))
    link := item.link.getD (item.url.getD "") }

/-- Sentence terminators: the regex character class `[.!?]`. -/
def isTerm (c : Char) : Bool :=
  c == '.' || c == '!' || c == '?'

/-- The regex class `[A-Z]` under `re.IGNORECASE`, at ASCII granularity. -/
def isLetter (c : Char) : Bool :=
  ('A' ≤ c && c ≤ 'Z') || ('a' ≤ c && c ≤ 'z')

/-- The fixed domain keyword alternation of the raw-text regex. -/
def keywordList : List (List Char) :=
  ["review".data, "hotel".data, "wifi".data, "guest".data,
   "stay".data, "room".data, "service".data, "clean".data]

/-- `pat` occurs at the head of `s`. -/
def matchesAt : List Char → List Char → Bool
  | [], _ => true
  | _ :: _, [] => false
  | p :: ps, c :: cs => p == c && matchesAt ps cs

/-- `pat` occurs as a contiguous substring of `s`. -/
def occursIn (pat : List Char) (s : List Char) : Bool :=
  matchesAt pat s ||
    match s with
    | [] => false
    | _ :: t => occursIn pat t

/-- Some domain keyword occurs (case-insensitively) in `s`. -/
def hasKeyword (s : List Char) : Bool :=
  keywordList.any (fun k => occursIn k (s.map Char.toLower))

/-- Split the text into maximal terminator-free segments, each paired with
the terminator character that closed it; a trailing unterminated segment is
dropped (the regex requires a closing `[.!?]`, so it can host no match).
`acc` holds the current segment reversed. -/
def splitSegsAux (acc : List Char) : List Char → List (List Char × Char)
  | [] => []
  | c :: t =>
      if isTerm c then (acc.reverse, c) :: splitSegsAux [] t
      else splitSegsAux (c :: acc) t

/-- The leftmost regex match inside one terminator-free segment: the first
position holding a letter and followed (strictly later in the segment) by a
keyword occurrence; the match runs from that letter to the segment's end. -/
def segMatch : List Char → Option (List Char)
  | [] => none
  | c :: t => if isLetter c && hasKeyword t then some (c :: t) else segMatch t

/-- `re.findall(r'[A-Z][^.!?]*(?:review|hotel|wifi|guest|stay|room|service|clean)[^.!?]*[.!?]', raw, re.IGNORECASE)`
(line 139).  Each match starts at a letter (`[A-Z]` is case-insensitive
here), contains a keyword strictly after its first character, cannot cross a
sentence terminator, and ends exactly at the first terminator after its
start; matches are non-overlapping and leftmost, so each terminator-closed
segment contributes at most one match. -/
def findMatches (raw : String) : List String :=
  (splitSegsAux [] raw.data).filterMap
    (fun p => (segMatch p.1).map (fun m => String.mk (m ++ [p.2])))

/-- The raw-text heuristic strategy (lines 134-146): enumerate the first
`num_results` matches, keep those longer than 30 characters, and title each
kept one `"Result {i+1}"` with `i` its index in the sliced match list. -/
def rawResults (raw : String) (num_results : Int) : List SearchResult :=
  ((pyTake num_results (findMatches raw)).enum.filter
      (fun p => 30 < p.2.length)).map
    (fun p =>
      { title := "Result " ++ toString (p.1 + 1)
        snippet := truncate 300 p.2
        link := "" })

/-- The extractor (lines 113-146): the `if "organic" / elif "results" /
elif "raw"` chain; the first present key is used exclusively, and a payload
with none of the three keys yields an empty list. -/
def extractResults (data : Payload) (num_results : Int) : List SearchResult :=
  match data.organic with
  | some items => (pyTake num_results items).map extractOrganicItem
  | none =>
      match data.results with
      | some items => (pyTake num_results items).map extractGenericItem
      | none =>
          match data.raw with
          | some raw => rawResults raw num_results
          | none => []

/-- The process environment as read by `search_google_serp`: only the
credential matters to control flow (`os.getenv` yields `none` when unset;
Python's `if not api_token` also treats an empty string as missing). -/
structure Env where
  apiToken : Option String
deriving Repr, DecidableEq

/-- `not api_token` — the credential is unset or empty. -/
def tokenMissing (t : Option String) : Bool :=
  match t with
  | none => true
  | some s => s.isEmpty

/-- Outcome of the single `requests.post` call, decoded and unwrapped:
HTTP 200 with a payload, a non-200 status with its body text, a
`requests.Timeout`, or any other raised fault with its description
(this also covers JSON-decode faults inside the 200 branch, which the final
`except Exception` catches). -/
inductive HttpOutcome where
  | ok (payload : Payload)
  | status (code : Nat) (body : String)
  | timeout
  | exn (msg : String)
deriving Repr, DecidableEq

/-- What one call to `search_google_serp` produces: the returned response,
the cache afterwards, and whether the HTTP transport was invoked. -/
structure SearchOutcome where
  resp : SearchResponse
  cache : Cache
  networkCalled : Bool

/-- `search_google_serp(query, num_results, country)` (lines 36-181), with
the mutable module state made explicit: `cache` is `_CACHE` on entry, `now`
the clock, and `net` the outcome the HTTP transport would produce if
invoked.  `country` is accepted and unused, as in the source. -/
def search_google_serp (query : String) (num_results : Int) (country : String)
    (env : Env) (cache : Cache) (now : Int) (net : HttpOutcome) :
    SearchOutcome :=
  if tokenMissing env.apiToken then
    { resp := { success := false, results := [],
                error := some "BRIGHTDATA_API_TOKEN not found in environment" }
      cache := cache
      networkCalled := false }
  else
    let key := cacheKey query num_results
    match cache_get cache now key with
    | (some cached, c1) =>
        { resp := cached, cache := c1, networkCalled := false }
    | (none, c1) =>
        match net with
        | .ok payload =>
            let results := extractResults payload num_results
            let resp : SearchResponse :=
              { success := true, results := results, error := none }
            { resp := resp
              cache := if results.isEmpty then c1
                       else cache_set c1 now key resp
              networkCalled := true }
        | .status code body =>
            { resp := { success := false, results := [],
                        error := some ("SERP API failed: " ++ toString code
                          ++ " - " ++ truncate 200 body) }
              cache := c1
              networkCalled := true }
        | .timeout =>
            { resp := { success := false, results := [],
                        error := some "SERP API request timed out (30s)" }
              cache := c1
              networkCalled := true }
        | .exn msg =>
            { resp := { success := false, results := [],
                        error := some ("SERP API error: " ++ msg) }
              cache := c1
              networkCalled := true }

/-- `relevance_score(r)` (lines 201-203): the number of keywords occurring
case-insensitively in the title and snippet joined by one space. -/
def relevance_score (kws : List String) (r : SearchResult) : Nat :=
  (kws.filter (fun kw =>
      occursIn (pyLower kw).data
        (pyLower (r.title ++ " " ++ r.snippet)).data)).length

/-- The comparison Python's stable `sorted(..., key=relevance_score,
reverse=True)` realizes: `a` may be placed before `b` iff its score is at
least `b`'s. -/
def scoreGE (kws : List String) (a b : SearchResult) : Prop :=
  relevance_score kws b ≤ relevance_score kws a

instance (kws : List String) : DecidableRel (scoreGE kws) :=
  fun _ _ => Nat.decLe _ _

instance (kws : List String) : IsTotal SearchResult (scoreGE kws) :=
  ⟨fun a b => Nat.le_total (relevance_score kws b) (relevance_score kws a)⟩

instance (kws : List String) : IsTrans SearchResult (scoreGE kws) :=
  ⟨fun _ _ _ h1 h2 => Nat.le_trans h2 h1⟩

/-- The reordering step of `format_serp_results` (lines 199-205): with a
truthy keyword list, a stable descending sort by `relevance_score` (Python's
`sorted` is stable and `reverse=True` preserves stability); with `None` or
an empty list the input order is kept.  Modelled by insertion sort with the
`scoreGE` comparison, which realizes exactly that stable descending sort. -/
def rankResults (kws : List String) (rs : List SearchResult) :
    List SearchResult :=
  if kws.isEmpty then rs else rs.insertionSort (scoreGE kws)

/-- One rendered block of `format_serp_results`'s loop (lines 209-214). -/
def renderResult (p : Nat × SearchResult) : String :=
  "[" ++ toString (p.1 + 1) ++ "] " ++ p.2.title ++ "\n"
    ++ "    Snippet: " ++ p.2.snippet ++ "\n"
    ++ (if p.2.link.isEmpty then "" else "    URL: " ++ p.2.link ++ "\n")
    ++ "\n"

/-- `format_serp_results(results, topic_keywords)` (lines 184-216). -/
def format_serp_results (results : List SearchResult) (kws : List String) :
    String :=
  if results.isEmpty then "No results found."
  else
    let rs := rankResults kws results
    (("=== Google Search Results (" ++ toString results.length
        ++ " found) ===\n\n") :: rs.enum.map renderResult).foldl (· ++ ·) ""

/-- The order a stable descending sort realizes on index-tagged results:
strictly larger score first, ties broken by smaller original index. -/
def tagLex (kws : List String) (a b : Nat × SearchResult) : Prop :=
  relevance_score kws b.2 < relevance_score kws a.2 ∨
    (relevance_score kws a.2 = relevance_score kws b.2 ∧ a.1 ≤ b.1)

instance (kws : List String) : DecidableRel (tagLex kws) :=
  fun _ _ => instDecidableOr

/-- The tag-and-sort characterization of a stable descending sort: pair each
result with its original index, sort by `tagLex`, and drop the tags.  Used
to state stability. -/
def stableRankSpec (kws : List String) (rs : List SearchResult) :
    List SearchResult :=
  (rs.enum.insertionSort (tagLex kws)).map Prod.snd

/-- Reading of the raw-text strategy with the numbering made explicit: walk
the first `num_results` matches with a running counter `i` (0-based over
that sliced match list, short matches included), keeping a result titled
`"Result {i+1}"` exactly for the matches longer than 30 characters. -/
def rawSpecAux (i : Nat) : List String → List SearchResult
  | [] => []
  | m :: rest =>
      if 30 < m.length then
        { title := "Result " ++ toString (i + 1)
          snippet := truncate 300 m
          link := "" } :: rawSpecAux (i + 1) rest
      else rawSpecAux (i + 1) rest

/-- The invariant of §3 on a `SearchResponse`: a failure carries no results,
and the error field is populated exactly on failure. -/
def goodResp (r : SearchResponse) : Prop :=
  (r.success = false → r.results = []) ∧ (r.error.isSome ↔ r.success = false)

/-- Every response stored in the cache satisfies the §3 invariant. -/
def cacheWF (c : Cache) : Prop :=
  ∀ e ∈ c, goodResp e.2.1

/- ### Helper lemmas -/

theorem length_truncate (n : Nat) (s : String) : (truncate n s).length ≤ n := by
  show (s.data.take n).length ≤ n
  rw [List.length_take]
  omega

theorem lookup_mem {β : Type} {k : String} {c : List (String × β)} {b : β}
    (h : List.lookup k c = some b) : ∃ a, (a, b) ∈ c := by
  induction c with
  | nil => simp [List.lookup] at h
  | cons p t ih =>
      obtain ⟨a, b'⟩ := p
      cases hk : k == a with
      | true =>
          simp only [List.lookup, hk, Option.some.injEq] at h
          exact ⟨a, by rw [h]; exact List.mem_cons_self _ _⟩
      | false =>
          simp only [List.lookup, hk] at h
          obtain ⟨a', ha⟩ := ih h
          exact ⟨a', List.mem_cons_of_mem _ ha⟩

theorem lookup_filter_ne {β : Type} (k : String) (c : List (String × β)) :
    List.lookup k (List.filter (fun p => !(p.1 == k)) c) = none := by
  induction c with
  | nil => rfl
  | cons p t ih =>
      cases hk : p.1 == k with
      | true => simp [List.filter, hk, ih]
      | false =>
          have hk' : (k == p.1) = false := by
            simp only [beq_eq_false_iff_ne] at hk ⊢
            exact fun h => hk h.symm
          simp [List.filter, hk, List.lookup, hk', ih]

theorem cache_get_entries (c : Cache) (now : Int) (k : String) :
    ∀ e ∈ (cache_get c now k).2, e ∈ c := by
  unfold cache_get
  cases hl : List.lookup k c with
  | none => simp
  | some vts =>
      obtain ⟨v, ts⟩ := vts
      by_cases hexp : now - ts > CACHE_TTL_SEC
      · simp only [hexp, if_pos]
        intro e he
        exact List.mem_of_mem_filter he
      · simp [hexp]

theorem cache_get_some_mem {c : Cache} {now : Int} {k : String}
    {v : SearchResponse} (h : (cache_get c now k).1 = some v) :
    ∃ e ∈ c, e.2.1 = v := by
  unfold cache_get at h
  cases hl : List.lookup k c with
  | none => simp [hl] at h
  | some vts =>
      obtain ⟨v', ts⟩ := vts
      rw [hl] at h
      by_cases hexp : now - ts > CACHE_TTL_SEC
      · simp [hexp] at h
      · simp only [hexp, if_neg, Option.some.injEq, not_false_eq_true] at h
        obtain ⟨a, ha⟩ := lookup_mem hl
        exact ⟨(a, v', ts), ha, h⟩

theorem cache_get_none_lookup {c : Cache} {now : Int} {k : String}
    (h : (cache_get c now k).1 = none) :
    List.lookup k (cache_get c now k).2 = none := by
  unfold cache_get at h ⊢
  cases hl : List.lookup k c with
  | none => simp [hl]
  | some vts =>
      obtain ⟨v, ts⟩ := vts
      rw [hl] at h
      by_cases hexp : now - ts > CACHE_TTL_SEC
      · simp only [hexp, if_pos]
        exact lookup_filter_ne k c
      · simp [hexp] at h

theorem cache_get_of_lookup_none {c : Cache} {now : Int} {k : String}
    (h : List.lookup k c = none) : cache_get c now k = (none, c) := by
  unfold cache_get
  rw [h]

theorem cache_set_entries (c : Cache) (now : Int) (k : String)
    (v : SearchResponse) :
    ∀ e ∈ cache_set c now k v, e = (k, v, now) ∨ e ∈ c := by
  intro e he
  rcases List.mem_cons.mp he with h | h
  · exact Or.inl h
  · exact Or.inr (List.mem_of_mem_filter h)

/- ### Claim C1 -/

/-- C1 (counterexample): the claim says two queries that differ only in
letter case (same `num_results`) get different cache keys.  `"A"` and `"a"`
differ only in case, yet `cacheKey` maps both to the very same key, because
the key is built from the lowercased query. -/
theorem C1_counterexample :
    "A" ≠ "a" ∧ pyLower "A" = pyLower "a" ∧ cacheKey "A" 10 = cacheKey "a" 10 := by
  refine ⟨by decide, by decide, by decide⟩

/-- C1 (amended): two calls whose query strings differ only in letter case
(same `num_results`) derive the SAME cache key, so they share one cache
entry; the requested count is part of the key. -/
theorem C1_case_folded_key (q1 q2 : String) (n : Int)
    (h : pyLower q1 = pyLower q2) : cacheKey q1 n = cacheKey q2 n := by
  simp [cacheKey, h]

theorem C1_witness :
    pyLower "Hotel WiFi" = pyLower "hotel wifi" ∧
      cacheKey "Hotel WiFi" 3 = cacheKey "hotel wifi" 3 :=
  ⟨by decide, C1_case_folded_key "Hotel WiFi" "hotel wifi" 3 (by decide)⟩

/- ### Claim C2 -/

/-- C2 (counterexample): the claim says every non-positive `num_results`
makes each strategy take an empty slice.  With `num_results = -1` the
Python slice `xs[:-1]` keeps all but the last item, so a two-item organic
payload yields one result, not zero. -/
theorem C2_counterexample :
    extractResults
        { organic := some [{ title := some "a" }, { title := some "b" }] }
        (-1)
      = [{ title := "a", snippet := "", link := "" }] := by
  decide

/-- C2 (amended): `num_results = 0` makes each strategy take an empty slice,
so the returned results list is empty (and the code raises no error); a
NEGATIVE `num_results` instead slices off the last `|num_results|` candidate
items, which is non-empty whenever more candidates than `|num_results|`
exist. -/
theorem C2_zero_slice :
    (∀ data : Payload, extractResults data 0 = []) ∧
      ∀ (items : List Item) (n : Int), n < 0 →
        extractResults { organic := some items } n
          = (items.take (items.length - (-n).toNat)).map extractOrganicItem := by
  constructor
  · intro data
    obtain ⟨og, res, raw⟩ := data
    cases og <;> cases res <;> cases raw <;>
      simp [extractResults, rawResults, pyTake]
  · intro items n hn
    have hn' : ¬(0 ≤ n) := by omega
    simp [extractResults, pyTake, hn']

theorem C2_witness :
    extractResults { raw := some "A clean room. And a second clean room." } 0 = [] ∧
      ((-2 : Int) < 0 ∧
        extractResults { organic := some [{ title := some "a" }] } (-2)
          = ([] : List Item).map extractOrganicItem) :=
  ⟨C2_zero_slice.1 _,
   by decide,
   by
     have h := C2_zero_slice.2 [{ title := some "a" }] (-2) (by decide)
     simpa using h⟩

/- ### Claim C6 -/

/-- C6: extraction strategies are tried in strict priority order.  When the
`organic` key is present, the output is built exclusively from the organic
items — whatever the `results` and `raw` fields hold, and even when organic
yields zero items — and when `organic` is absent but `results` is present,
the output is built exclusively from the `results` items whatever `raw`
holds. -/
theorem C6_strategy_priority (n : Int) (og : List Item)
    (res : Option (List Item)) (raw : Option String) :
    (extractResults { organic := some og, results := res, raw := raw } n
        = (pyTake n og).map extractOrganicItem) ∧
      ∀ res' : List Item,
        extractResults { organic := none, results := some res', raw := raw } n
          = (pyTake n res').map extractGenericItem :=
  ⟨rfl, fun _ => rfl⟩

/- ### Claim C9 -/

/-- C9: with no usable credential (unset, or empty — Python's `not
api_token`), the call returns immediately: `success = false`, empty results,
an error naming the missing `BRIGHTDATA_API_TOKEN` variable, the cache
untouched, and the HTTP transport never invoked (the outcome is the same for
every transport behaviour `net`). -/
theorem C9_missing_credential (query country : String) (n : Int) (env : Env)
    (cache : Cache) (now : Int) (net : HttpOutcome)
    (h : tokenMissing env.apiToken = true) :
    search_google_serp query n country env cache now net =
      { resp := { success := false, results := [],
                  error := some "BRIGHTDATA_API_TOKEN not found in environment" }
        cache := cache
        networkCalled := false } := by
  simp [search_google_serp, h]

theorem C9_witness :
    tokenMissing (Env.mk none).apiToken = true ∧
      search_google_serp "wifi review" 3 "us" ⟨none⟩ [] 100 (.ok {}) =
        { resp := { success := false, results := [],
                    error := some "BRIGHTDATA_API_TOKEN not found in environment" }
          cache := []
          networkCalled := false } :=
  ⟨rfl, C9_missing_credential "wifi review" "us" 3 ⟨none⟩ [] 100 (.ok {}) rfl⟩

/- ### Claim C10 -/

/-- C10: the credential check precedes the cache lookup — even when a fresh
(unexpired) cache entry exists for the query's key, a call without a usable
credential returns the `MissingCredential` failure, leaves the cache exactly
as it was (in particular no lazy eviction happens, so the cache was not
consulted), and performs no network call. -/
theorem C10_credential_before_cache (query country : String) (n : Int)
    (env : Env) (cache : Cache) (now : Int) (net : HttpOutcome)
    (hmiss : tokenMissing env.apiToken = true)
    (hfresh : (cache_get cache now (cacheKey query n)).1.isSome = true) :
    (search_google_serp query n country env cache now net).resp
        = { success := false, results := [],
            error := some "BRIGHTDATA_API_TOKEN not found in environment" } ∧
      (search_google_serp query n country env cache now net).cache = cache ∧
      (search_google_serp query n country env cache now net).networkCalled
        = false := by
  simp [search_google_serp, hmiss]

theorem C10_witness :
    (cache_get [(cacheKey "q" 10,
        ⟨true, [⟨"t", "s", "l"⟩], none⟩, 5)] 10 (cacheKey "q" 10)).1.isSome
        = true ∧
      (search_google_serp "q" 10 "us" ⟨some ""⟩
          [(cacheKey "q" 10, ⟨true, [⟨"t", "s", "l"⟩], none⟩, 5)] 10
          .timeout).resp
        = { success := false, results := [],
            error := some "BRIGHTDATA_API_TOKEN not found in environment" } :=
  ⟨by decide,
   (C10_credential_before_cache "q" "us" 10 ⟨some ""⟩
      [(cacheKey "q" 10, ⟨true, [⟨"t", "s", "l"⟩], none⟩, 5)] 10
      .timeout rfl (by decide)).1⟩

/- ### Claim C5 -/

/-- C5: every `SearchResult` produced by the extractor — through any of the
three strategies (organic, generic results, raw-text heuristic) — has a
snippet of at most 300 characters, because each strategy truncates the
snippet with `[:300]` at construction time. -/
theorem C5_snippet_bound (data : Payload) (n : Int) (r : SearchResult)
    (h : r ∈ extractResults data n) : r.snippet.length ≤ 300 := by
  obtain ⟨og, res, raw⟩ := data
  cases og with
  | some items =>
      simp only [extractResults, List.mem_map] at h
      obtain ⟨item, _, rfl⟩ := h
      exact length_truncate 300 _
  | none =>
      cases res with
      | some items =>
          simp only [extractResults, List.mem_map] at h
          obtain ⟨item, _, rfl⟩ := h
          exact length_truncate 300 _
      | none =>
          cases raw with
          | some rawText =>
              simp only [extractResults, rawResults, List.mem_map] at h
              obtain ⟨p, _, rfl⟩ := h
              exact length_truncate 300 _
          | none => simp [extractResults] at h

theorem C5_witness :
    (⟨"t", "some description", "u"⟩ : SearchResult) ∈
        extractResults
          { organic := some [{ title := some "t",
                               description := some "some description",
                               url := some "u" }] } 5 ∧
      (⟨"t", "some description", "u"⟩ : SearchResult).snippet.length ≤ 300 :=
  ⟨by decide,
   C5_snippet_bound
     { organic := some [{ title := some "t",
                          description := some "some description",
                          url := some "u" }] }
     5 ⟨"t", "some description", "u"⟩ (by decide)⟩

/- ### Claim C4 -/

/-- C4: on every code path — missing credential, cache hit, HTTP-200
success, non-200 status, timeout, unexpected fault — the returned
`SearchResponse` satisfies the §3 invariant: `success = false` implies an
empty results list, and `error` is populated iff `success = false`.  On the
cache-hit path this relies on the cache holding only invariant-satisfying
responses, which the call itself preserves (third conjunct) and which holds
of the initial empty `_CACHE` (first conjunct). -/
theorem C4_response_invariant (query country : String) (n : Int) (env : Env)
    (cache : Cache) (now : Int) (net : HttpOutcome) (hwf : cacheWF cache) :
    cacheWF ([] : Cache) ∧
      goodResp (search_google_serp query n country env cache now net).resp ∧
      cacheWF (search_google_serp query n country env cache now net).cache := by
  refine ⟨fun e he => absurd he (List.not_mem_nil e), ?_⟩
  unfold search_google_serp
  by_cases htok : tokenMissing env.apiToken
  · simp only [htok, if_pos]
    exact ⟨⟨fun _ => rfl, by simp⟩, hwf⟩
  · simp only [htok, if_neg, Bool.false_eq_true, not_false_eq_true]
    rcases hget : cache_get cache now (cacheKey query n) with ⟨cv, c1⟩
    have hc1 : ∀ e ∈ c1, e ∈ cache := by
      intro e he
      have := cache_get_entries cache now (cacheKey query n)
      rw [hget] at this
      exact this e he
    have hwf1 : cacheWF c1 := fun e he => hwf e (hc1 e he)
    cases cv with
    | some cached =>
        simp only []
        have : ∃ e ∈ cache, e.2.1 = cached := by
          apply cache_get_some_mem
          rw [hget]
        obtain ⟨e, hec, hev⟩ := this
        exact ⟨hev ▸ hwf e hec, hwf1⟩
    | none =>
        cases net with
        | ok payload =>
            simp only []
            refine ⟨⟨fun hfalse => by simp at hfalse, by simp⟩, ?_⟩
            by_cases hres : (extractResults payload n).isEmpty
            · simpa [hres] using hwf1
            · simp only [hres, if_neg, Bool.false_eq_true, not_false_eq_true]
              intro e he
              rcases cache_set_entries c1 now (cacheKey query n) _ e he with
                h | h
              · subst h
                exact ⟨fun hfalse => by simp at hfalse, by simp⟩
              · exact hwf1 e h
        | status code body =>
            exact ⟨⟨fun _ => rfl, by simp⟩, hwf1⟩
        | timeout =>
            exact ⟨⟨fun _ => rfl, by simp⟩, hwf1⟩
        | exn msg =>
            exact ⟨⟨fun _ => rfl, by simp⟩, hwf1⟩

theorem C4_witness :
    cacheWF ([] : Cache) ∧
      goodResp (search_google_serp "q" 10 "us" ⟨some "tok"⟩ [] 0
        (.status 500 "boom")).resp ∧
      cacheWF (search_google_serp "q" 10 "us" ⟨some "tok"⟩ [] 0
        (.status 500 "boom")).cache :=
  C4_response_invariant "q" "us" 10 ⟨some "tok"⟩ [] 0 (.status 500 "boom")
    (fun e he => absurd he (List.not_mem_nil e))

/- ### Claim C7 -/

/-- C7: an empty extracted result list is never written to the cache.  On a
cache miss whose provider call succeeds but extracts nothing, every entry of
the resulting cache already existed before the call (so nothing was
written), and an immediately repeated identical request — at any later time
and whatever the transport then does — reaches the provider again instead of
reusing a cached empty response. -/
theorem C7_no_negative_caching (query country : String) (n : Int) (env : Env)
    (cache : Cache) (now : Int) (p : Payload)
    (htok : tokenMissing env.apiToken = false)
    (hmiss : (cache_get cache now (cacheKey query n)).1 = none)
    (hempty : extractResults p n = []) :
    (∀ e ∈ (search_google_serp query n country env cache now (.ok p)).cache,
        e ∈ cache) ∧
      ∀ (now2 : Int) (net2 : HttpOutcome),
        (search_google_serp query n country env
            (search_google_serp query n country env cache now (.ok p)).cache
            now2 net2).networkCalled = true := by
  have hpair : cache_get cache now (cacheKey query n)
      = (none, (cache_get cache now (cacheKey query n)).2) := by
    rw [← hmiss]
  have hout : (search_google_serp query n country env cache now (.ok p)).cache
      = (cache_get cache now (cacheKey query n)).2 := by
    unfold search_google_serp
    rw [htok]
    simp only [Bool.false_eq_true, if_neg, not_false_eq_true]
    rw [hpair]
    simp [hempty]
  constructor
  · rw [hout]
    exact cache_get_entries cache now (cacheKey query n)
  · intro now2 net2
    have hlook : List.lookup (cacheKey query n)
        (search_google_serp query n country env cache now (.ok p)).cache
        = none := by
      rw [hout]
      exact cache_get_none_lookup hmiss
    generalize hg :
      (search_google_serp query n country env cache now (.ok p)).cache = c2
        at hlook ⊢
    unfold search_google_serp
    rw [htok]
    simp only [Bool.false_eq_true, if_neg, not_false_eq_true]
    rw [cache_get_of_lookup_none hlook]
    cases net2 <;> simp

theorem C7_witness :
    extractResults (Payload.mk none none none) 10 = [] ∧
      (search_google_serp "q" 10 "us" ⟨some "tok"⟩
          (search_google_serp "q" 10 "us" ⟨some "tok"⟩ [] 0
            (.ok (Payload.mk none none none))).cache
          60 .timeout).networkCalled = true :=
  ⟨rfl,
   (C7_no_negative_caching "q" "us" 10 ⟨some "tok"⟩ [] 0
      (Payload.mk none none none) rfl (by decide) rfl).2 60 .timeout⟩

/- ### Claim C3 -/

/-- C3 (counterexample): the claim titles results `"Result N"` with `N`
1-indexed over the PRODUCED list.  On a raw payload whose first regex match
is short (≤ 30 chars, filtered out) and whose second is long, the single
produced result is titled `"Result 2"` — the index counts position among
the sliced matches, short ones included — where the claim demands
`"Result 1"`. -/
theorem C3_counterexample :
    extractResults
        { raw := some "A hotel. A hotel with twenty extra characters yes." }
        10
      = [{ title := "Result 2",
           snippet := "A hotel with twenty extra characters yes.",
           link := "" }] ∧
      (extractResults
          { raw := some "A hotel. A hotel with twenty extra characters yes." }
          10).map SearchResult.title ≠ ["Result 1"] := by
  refine ⟨by decide, by decide⟩

/-- C3 (amended): on a payload carrying only a `raw` text field, the
produced list consists of those among the first `num_results` regex matches
whose length exceeds 30 characters, each with title `"Result N"` where `N-1`
is the match's 0-based index within those first `num_results` matches
(filtered-out short matches still advance the numbering), snippet equal to
the matched text truncated to 300 characters, and an empty link — which is
exactly the walk `rawSpecAux` performs. -/
theorem rawSpecAux_eq_enumFrom (l : List String) : ∀ i : Nat,
    (((l.enumFrom i).filter (fun p => 30 < p.2.length)).map
        (fun p => ({ title := "Result " ++ toString (p.1 + 1)
                     snippet := truncate 300 p.2
                     link := "" } : SearchResult)))
      = rawSpecAux i l := by
  induction l with
  | nil => intro i; rfl
  | cons m rest ih =>
      intro i
      rw [List.enumFrom]
      by_cases hm : 30 < m.length
      · simp [List.filter_cons, rawSpecAux, hm, ih (i + 1)]
      · simp [List.filter_cons, rawSpecAux, hm, ih (i + 1)]

theorem C3_raw_strategy (raw : String) (n : Int) :
    extractResults { raw := some raw } n
      = rawSpecAux 0 (pyTake n (findMatches raw)) := by
  show rawResults raw n = _
  unfold rawResults
  exact rawSpecAux_eq_enumFrom (pyTake n (findMatches raw)) 0

/- ### Claim C8 -/

theorem enumFrom_le_fst {α : Type} (l : List α) : ∀ (s : Nat),
    ∀ p ∈ l.enumFrom s, s ≤ p.1 := by
  induction l with
  | nil => intro s p hp; simp [List.enumFrom] at hp
  | cons a t ih =>
      intro s p hp
      rw [List.enumFrom] at hp
      rcases List.mem_cons.mp hp with h | h
      · subst h; exact Nat.le_refl s
      · exact Nat.le_trans (Nat.le_succ s) (ih (s + 1) p h)

theorem tagLex_iff {kws : List String} {s : Nat} {a : SearchResult}
    {b : Nat × SearchResult} (hb : s < b.1) :
    tagLex kws (s, a) b ↔ scoreGE kws a b.2 := by
  simp only [tagLex, scoreGE]
  omega

theorem map_snd_orderedInsert (kws : List String) (a : SearchResult)
    (s : Nat) : ∀ L : List (Nat × SearchResult), (∀ p ∈ L, s < p.1) →
    (L.orderedInsert (tagLex kws) (s, a)).map Prod.snd
      = (L.map Prod.snd).orderedInsert (scoreGE kws) a := by
  intro L
  induction L with
  | nil => intro _; rfl
  | cons b M ih =>
      intro h
      simp only [List.orderedInsert, List.map]
      by_cases hc : scoreGE kws a b.2
      · rw [if_pos ((tagLex_iff (h b (List.mem_cons_self b M))).mpr hc),
          if_pos hc]
        rfl
      · rw [if_neg (fun hl =>
            hc ((tagLex_iff (h b (List.mem_cons_self b M))).mp hl)),
          if_neg hc]
        simp only [List.map]
        exact congrArg _ (ih (fun p hp => h p (List.mem_cons_of_mem b hp)))

theorem map_snd_insertionSort_enumFrom (kws : List String)
    (l : List SearchResult) : ∀ s : Nat,
    ((l.enumFrom s).insertionSort (tagLex kws)).map Prod.snd
      = l.insertionSort (scoreGE kws) := by
  induction l with
  | nil => intro s; rfl
  | cons a t ih =>
      intro s
      rw [List.enumFrom]
      simp only [List.insertionSort]
      rw [← ih (s + 1)]
      apply map_snd_orderedInsert
      intro p hp
      have hmem : p ∈ t.enumFrom (s + 1) :=
        (List.perm_insertionSort (tagLex kws) (t.enumFrom (s + 1))).mem_iff.mp
          hp
      have := enumFrom_le_fst t (s + 1) p hmem
      omega

/-- C8: with a supplied non-empty keyword list, `format_serp_results`
reorders the results into descending `relevance_score` order (each element's
score is at least the next's), and the reordering is stable: it coincides
with sorting the index-tagged results by score descending with ties broken
by the smaller original index (`stableRankSpec`), so equal-score results
retain their original relative order.  With no (or an empty) keyword list
the results keep their extraction order unchanged. -/
theorem C8_stable_ranking (kws : List String) (rs : List SearchResult) :
    (kws = [] → rankResults kws rs = rs) ∧
      (kws ≠ [] →
        List.Sorted (scoreGE kws) (rankResults kws rs) ∧
          rankResults kws rs = stableRankSpec kws rs) := by
  constructor
  · intro h
    simp [rankResults, h]
  · intro h
    have hne : kws.isEmpty = false := by
      cases kws with
      | nil => exact absurd rfl h
      | cons a t => rfl
    constructor
    · simp only [rankResults, hne, Bool.false_eq_true, if_neg,
        not_false_eq_true]
      exact List.sorted_insertionSort (scoreGE kws) rs
    · simp only [rankResults, hne, Bool.false_eq_true, if_neg,
        not_false_eq_true, stableRankSpec]
      exact (map_snd_insertionSort_enumFrom kws rs 0).symm

/-- The spec's ranking-stability scenario: A scores 0, B and C both score 2,
B precedes C in extraction order, and the ranked output is `[B, C, A]`. -/
theorem C8_witness :
    rankResults ["wifi", "clean"]
        [⟨"plain", "nothing here", ""⟩,
         ⟨"WiFi paradise", "very clean", ""⟩,
         ⟨"Clean rooms", "free wifi", ""⟩]
      = stableRankSpec ["wifi", "clean"]
        [⟨"plain", "nothing here", ""⟩,
         ⟨"WiFi paradise", "very clean", ""⟩,
         ⟨"Clean rooms", "free wifi", ""⟩] ∧
      rankResults ["wifi", "clean"]
        [⟨"plain", "nothing here", ""⟩,
         ⟨"WiFi paradise", "very clean", ""⟩,
         ⟨"Clean rooms", "free wifi", ""⟩]
      = [⟨"WiFi paradise", "very clean", ""⟩,
         ⟨"Clean rooms", "free wifi", ""⟩,
         ⟨"plain", "nothing here", ""⟩] :=
  ⟨((C8_stable_ranking ["wifi", "clean"]
      [⟨"plain", "nothing here", ""⟩,
       ⟨"WiFi paradise", "very clean", ""⟩,
       ⟨"Clean rooms", "free wifi", ""⟩]).2 (by decide)).2,
   by decide⟩

end BrightData
